import Mathlib

/-!
Shallow embedding of `scripts/update_projects.py` (the single source file of
the repository): an API client with bounded retry (`gh_get`), paginated
repository listing (`list_public_repos`), per-repository Pages-URL
resolution (`get_pages_url`), entry assembly and filtering (the loop in
`main`), the descending stable sort on `updated_at`, and the idempotent
snapshot write.

Modelling conventions:
- HTTP responses are `Response` records carrying the status code, the raw
  body text, and the two JSON fields of the Pages API payload that the
  script reads (`html_url`, `cname`, each `none` when absent or JSON null).
- A single request attempt (`SESSION.get`) either raises a
  `requests.RequestException` (constructor `Attempt.exn`) or yields a
  response (`Attempt.resp`).  The sequence of attempt outcomes for one
  `gh_get` call is a function `Nat → Attempt` (index = 0-based attempt).
- Sleeps are recorded in tenths of a second (`time.sleep(1.5*(attempt+1))`
  becomes the value `15*(attempt+1)`), so that durations stay in `Nat`.
- Python truthiness of an optional string (`x or default`, `if data["k"]`)
  is modelled by `py_or` / `truthy`: `none` and `some ""` are falsy.
- `str.lower()` is modelled by `lowerStr` (ASCII case folding, which is
  exact for ASCII repository/account names).
-/

/-- An HTTP response as the script observes it: `status_code`, the body
text used by `raise_for_status`, and the parsed JSON fields of the Pages
API payload that `get_pages_url` reads (`none` models a missing key or a
JSON null). -/
structure Response where
  status : Nat
  body : String
  html_url : Option String
  cname : Option String
deriving DecidableEq

/-- Outcome of one `SESSION.get` call inside `gh_get`: either the call
raises a `requests.RequestException` or it returns a response. -/
inductive Attempt where
  | exn
  | resp (r : Response)
deriving DecidableEq

/-- Observable result of a `gh_get` call:
`success r`  — some attempt had an acceptable status and `r` was returned;
`httpError`  — all attempts were unacceptable and `r.raise_for_status()`
               raised `HTTPError` carrying the final status and body;
`noResponse` — all attempts were unacceptable but the final status was not
               in 400–599, so `raise_for_status()` did nothing and the
               function fell off the end, returning Python `None`;
`exn`        — a `SESSION.get` raised and the exception propagated. -/
inductive GhGetResult where
  | success (r : Response)
  | httpError (status : Nat) (body : String)
  | noResponse
  | exn
deriving DecidableEq

/-- Internal outcome of the `for attempt in range(3)` loop of `gh_get`:
success, a propagating exception, or exhaustion carrying the last response
received (`none` only in the vacuous zero-iteration case). -/
inductive LoopOut where
  | success (r : Response)
  | raised
  | exhausted (last : Option Response)
deriving DecidableEq

/-- `requests.Response.raise_for_status`: returns the status and body to
raise as `HTTPError` when the status is in 400–599, and `none` (no raise)
otherwise. -/
def raise_for_status (r : Response) : Option (Nat × String) :=
  if 400 ≤ r.status ∧ r.status < 600 then some (r.status, r.body) else none

/-- The retry loop of `gh_get` (source lines 47–52): at most `n` further
attempts, the next one having 0-based index `i`.  Returns the loop outcome,
the number of requests issued, and the list of sleep durations (tenths of a
second; the script sleeps `1.5 * (attempt + 1)` seconds after every
unacceptable response, including the last one). -/
def gh_get_loop (ok_codes : List Nat) (att : Nat → Attempt) :
    Nat → Nat → LoopOut × Nat × List Nat
  | 0, _ => (.exhausted none, 0, [])
  | n + 1, i =>
    match att i with
    | .exn => (.raised, 1, [])
    | .resp r =>
      if r.status ∈ ok_codes then (.success r, 1, [])
      else
        match gh_get_loop ok_codes att n (i + 1) with
        | (.exhausted none, reqs, sl) => (.exhausted (some r), reqs + 1, 15 * (i + 1) :: sl)
        | (out, reqs, sl) => (out, reqs + 1, 15 * (i + 1) :: sl)

/-- `gh_get` (source lines 46–53): run the 3-attempt loop, then model the
trailing `r.raise_for_status()` on the final response.  The second and
third components record the number of requests issued and the sleeps
performed (tenths of a second). -/
def gh_get (ok_codes : List Nat) (att : Nat → Attempt) :
    GhGetResult × Nat × List Nat :=
  match gh_get_loop ok_codes att 3 0 with
  | (.success r, reqs, sl) => (.success r, reqs, sl)
  | (.raised, reqs, sl) => (.exn, reqs, sl)
  | (.exhausted (some r), reqs, sl) =>
    match raise_for_status r with
    | some sb => (.httpError sb.1 sb.2, reqs, sl)
    | none => (.noResponse, reqs, sl)
  | (.exhausted none, reqs, sl) => (.noResponse, reqs, sl)

/-- ASCII case folding of a string, modelling Python `str.lower()` on the
ASCII names this script handles. -/
def lowerStr (s : String) : String := ⟨s.data.map Char.toLower⟩

/-- Python `s.rstrip("/")`: remove all trailing `'/'` characters. -/
def rstrip_slash (s : String) : String :=
  ⟨(s.data.reverse.dropWhile (fun c => c = '/')).reverse⟩

/-- Python truthiness of an optional string: `none` (absent / JSON null)
and `some ""` are falsy. -/
def truthy : Option String → Bool
  | some s => s ≠ ""
  | none => false

/-- Python `x or default` for an optional string `x`. -/
def py_or (a : Option String) (b : String) : String :=
  match a with
  | some s => if s = "" then b else s
  | none => b

/-- The special user/organization site name `f"{owner.lower()}.github.io"`
(source line 80). -/
def special_root (owner : String) : String := lowerStr owner ++ ".github.io"

/-- Result of `get_pages_url`: a returned URL string, Python `None`
(the `has_pages` guard), or an uncaught exception (`AttributeError` from
`None.status_code`, see `GhGetResult.noResponse`) that aborts the run. -/
inductive PagesUrlResult where
  | url (s : String)
  | noUrl
  | crash
deriving DecidableEq

/-- `get_pages_url` (source lines 71–99).  `att` is the sequence of attempt
outcomes of the `gh_get` call against the repository's Pages endpoint.
The `try`/`except requests.RequestException` catches `httpError` and `exn`
outcomes of `gh_get`; a `noResponse` outcome means `gh_get` returned
`None`, so `r.status_code` raises an uncaught `AttributeError` (`crash`). -/
def get_pages_url (owner repo_name : String) (has_pages : Bool)
    (att : Nat → Attempt) : PagesUrlResult :=
  if has_pages = false then .noUrl
  else if lowerStr repo_name = special_root owner then
    .url ("https://" ++ special_root owner ++ "/")
  else
    match (gh_get [200, 403, 404] att).1 with
    | .success r =>
      if r.status = 200 then
        if truthy r.html_url then .url (rstrip_slash (r.html_url.getD "") ++ "/")
        else if truthy r.cname then
          .url ("https://" ++ rstrip_slash (r.cname.getD "") ++ "/")
        else .url ("https://" ++ owner ++ ".github.io/" ++ repo_name ++ "/")
      else .url ("https://" ++ owner ++ ".github.io/" ++ repo_name ++ "/")
    | .httpError _ _ => .url ("https://" ++ owner ++ ".github.io/" ++ repo_name ++ "/")
    | .exn => .url ("https://" ++ owner ++ ".github.io/" ++ repo_name ++ "/")
    | .noResponse => .crash

/-- A raw repository record as returned by the listing endpoint, restricted
to the fields the script reads.  `Option` fields model JSON keys that may
be absent or null; `stargazers_count` models `repo.get("stargazers_count", 0)`
directly as a number. -/
structure Repo where
  name : String
  full_name : Option String
  has_pages : Bool
  archived : Bool
  description : Option String
  pushed_at : Option String
  updated_at : Option String
  stargazers_count : Nat
  language : Option String
  html_url : Option String
deriving DecidableEq

/-- One output object of `_data/projects.json` (source lines 124–134). -/
structure Entry where
  name : String
  url : Option String
  github_url : String
  description : String
  updated_at : String
  stars : Nat
  language : String
deriving DecidableEq

/-- `full_name = repo.get("full_name", f"{OWNER}/{repo_name}").lower()`
(source line 112). -/
def full_name_of (owner : String) (repo : Repo) : String :=
  lowerStr (repo.full_name.getD (owner ++ "/" ++ repo.name))

/-- The dictionary appended to `pages_projects` (source lines 116–134),
with the already-resolved `url` passed in. -/
def mk_entry (owner : String) (repo : Repo) (url : Option String) : Entry :=
  { name := repo.name
    url := url
    github_url := py_or repo.html_url ("https://github.com/" ++ owner ++ "/" ++ repo.name)
    description := py_or repo.description ""
    updated_at := py_or repo.pushed_at (py_or repo.updated_at "")
    stars := repo.stargazers_count
    language := py_or repo.language "" }

/-- The filtering/assembly loop of `main` (source lines 104–134).  `excl`
and `excl_full` embed the startup globals `EXCLUDE_REPOS` and
`EXCLUDE_FULL_NAMES`; `env` gives, per repository name, the attempt
outcomes of that repository's Pages-API lookup.  `.error ()` models an
uncaught exception escaping the loop and aborting the run. -/
def pages_projects (owner : String) (excl excl_full : List String)
    (env : String → Nat → Attempt) : List Repo → Except Unit (List Entry)
  | [] => .ok []
  | repo :: rest =>
    if repo.has_pages = false then pages_projects owner excl excl_full env rest
    else if repo.archived = true then pages_projects owner excl excl_full env rest
    else if lowerStr repo.name ∈ excl ∨ full_name_of owner repo ∈ excl_full then
      pages_projects owner excl excl_full env rest
    else
      match get_pages_url owner repo.name true (env repo.name) with
      | .crash => .error ()
      | .url s =>
        match pages_projects owner excl excl_full env rest with
        | .ok es => .ok (mk_entry owner repo (some s) :: es)
        | .error e => .error e
      | .noUrl =>
        match pages_projects owner excl excl_full env rest with
        | .ok es => .ok (mk_entry owner repo none :: es)
        | .error e => .error e

/-- Lexicographic comparison of character lists by code point, the order
Python uses on strings. -/
def charsLe : List Char → List Char → Bool
  | [], _ => true
  | _ :: _, [] => false
  | a :: as, b :: bs => if a < b then true else if b < a then false else charsLe as bs

/-- Python string `≤` (lexicographic by code point). -/
def strLe (a b : String) : Bool := charsLe a.data b.data

/-- The sort key of source line 137: `x["updated_at"] or ""`. -/
def entry_key (e : Entry) : String := py_or (some e.updated_at) ""

/-- `pages_projects.sort(key=lambda x: x["updated_at"] or "", reverse=True)`
(source line 137): Python's stable sort, descending on the key, modelled as
a stable merge sort with `a` before `b` when `key b ≤ key a`. -/
def sort_entries (es : List Entry) : List Entry :=
  es.mergeSort (fun a b => strLe (entry_key b) (entry_key a))

/-- State of the snapshot file `_data/projects.json` before a run, as seen
through source lines 141–147: absent, present but not valid JSON
(`json.load` raises and `old` stays `None`), present and parsing to a list
of entry objects, or present and parsing to some other JSON value (which
can never equal the list `pages_projects`). -/
inductive OldFile where
  | absent
  | unparseable
  | parsedEntries (v : List Entry)
  | parsedOther
deriving DecidableEq

/-- What the writer reports (source lines 149–158). -/
inductive WriteOutcome where
  | noChanges
  | wrote (count : Nat)
deriving DecidableEq

/-- The comparison-and-write step of `main` (source lines 141–158):
`old == pages_projects` succeeds exactly when the file parsed to an equal
list; otherwise the new list is written and its length reported. -/
def write_snapshot (old : OldFile) (new : List Entry) : WriteOutcome :=
  match old with
  | .parsedEntries v => if v = new then .noChanges else .wrote new.length
  | _ => .wrote new.length

/-- The snapshot-file state after a run: an actual write replaces the file
with content that parses back to the written list (the JSON round trip is
faithful for these entries), and a skipped write leaves the file as it
was. -/
def file_after (old : OldFile) (new : List Entry) : OldFile :=
  match write_snapshot old new with
  | .noChanges => old
  | .wrote _ => .parsedEntries new

/-- The pagination loop of `list_public_repos` (source lines 55–69).
`pages` maps a page number to the JSON chunk that page returns (the model
of runs in which every page request succeeds); `fuel` bounds the number of
iterations so the recursion is total, with `none` standing for fuel
exhaustion.  Returns the requested page numbers in order together with the
accumulated repository list. -/
def list_repos_from (pages : Nat → List Repo) :
    Nat → Nat → Option (List Nat × List Repo)
  | 0, _ => none
  | fuel + 1, page =>
    if pages page = [] then some ([page], [])
    else
      match list_repos_from pages fuel (page + 1) with
      | some (reqs, repos) => some (page :: reqs, pages page ++ repos)
      | none => none

/-- `list_public_repos` (source lines 55–69): pagination starts at page 1. -/
def list_public_repos (pages : Nat → List Repo) (fuel : Nat) :
    Option (List Nat × List Repo) :=
  list_repos_from pages fuel 1

/-- Classifier for the two `gh_get` outcomes in which all three attempts
received unacceptable responses (the retries were exhausted). -/
def is_exhausted : GhGetResult → Bool
  | .httpError _ _ => true
  | .noResponse => true
  | _ => false

/-- Classifier for the `gh_get` outcomes of the Pages lookup that the
`except requests.RequestException` clause of `get_pages_url` absorbs, plus
the acceptable non-200 responses: a propagated request exception, an
`HTTPError` from exhausted retries, or a returned 403/404-style response
(any acceptable status other than 200). -/
def lookup_caught : GhGetResult → Bool
  | .exn => true
  | .httpError _ _ => true
  | .success r => r.status ≠ 200
  | .noResponse => false

/-- Classifier for the `gh_get` outcomes of the Pages lookup after which
`get_pages_url` falls through to the heuristic fallback URL: a returned
response whose status is not 200 (the acceptable 403/404), a 200 response
carrying neither a truthy `html_url` nor a truthy `cname`, an `HTTPError`
from exhausted retries, or a propagated request exception.  Exactly the
lookups that yield neither an explicit site URL nor a custom domain
(and do not abort the run). -/
def lookup_fell_through : GhGetResult → Bool
  | .exn => true
  | .httpError _ _ => true
  | .success r =>
    if r.status = 200 then !truthy r.html_url && !truthy r.cname else true
  | .noResponse => false

/-- Attempt environment in which every request returns HTTP 204 with an
empty-ish body: a status outside every acceptable set used by the script,
yet outside the 400–599 range that `raise_for_status` turns into an error. -/
def env204 : Nat → Attempt := fun _ => .resp ⟨204, "No Content", none, none⟩

/-- Attempt environment in which every request returns HTTP 500. -/
def env500 : Nat → Attempt := fun _ => .resp ⟨500, "boom", none, none⟩

/-- Attempt environment in which every request returns HTTP 404. -/
def env404 : Nat → Attempt := fun _ => .resp ⟨404, "Not Found", none, none⟩

/-- A concrete eligible repository record used in counterexamples and
witnesses. -/
def widgetsRepo : Repo :=
  { name := "widgets"
    full_name := some "Acme/widgets"
    has_pages := true
    archived := false
    description := some "demo"
    pushed_at := some "2024-01-01T00:00:00Z"
    updated_at := some "2023-01-01T00:00:00Z"
    stargazers_count := 1
    language := some "Python"
    html_url := some "https://github.com/Acme/widgets" }

/-- A concrete repository whose case-folded name sits in the exclusion
set `["secret-repo"]`. -/
def secretRepo : Repo :=
  { name := "Secret-Repo"
    full_name := some "Acme/Secret-Repo"
    has_pages := true
    archived := false
    description := none
    pushed_at := none
    updated_at := none
    stargazers_count := 0
    language := none
    html_url := none }

/-- Concrete entry with last-activity timestamp `2024-01-01T00:00:00Z`. -/
def entJan : Entry :=
  { name := "jan", url := some "https://acme.github.io/jan/"
    github_url := "https://github.com/Acme/jan", description := ""
    updated_at := "2024-01-01T00:00:00Z", stars := 0, language := "" }

/-- Concrete entry with empty last-activity timestamp. -/
def entNone : Entry :=
  { name := "none", url := some "https://acme.github.io/none/"
    github_url := "https://github.com/Acme/none", description := ""
    updated_at := "", stars := 0, language := "" }

/-- Concrete entry with last-activity timestamp `2024-06-01T00:00:00Z`. -/
def entJun : Entry :=
  { name := "jun", url := some "https://acme.github.io/jun/"
    github_url := "https://github.com/Acme/jun", description := ""
    updated_at := "2024-06-01T00:00:00Z", stars := 0, language := "" }

/-- A concrete page environment: page 1 holds one repository, every other
page is empty. -/
def pagesOne : Nat → List Repo := fun n => if n = 1 then [widgetsRepo] else []

/-- A second concrete entry sharing `entJan`'s timestamp, for the
stability witness. -/
def entJanB : Entry :=
  { name := "janb", url := some "https://acme.github.io/janb/"
    github_url := "https://github.com/Acme/janb", description := ""
    updated_at := "2024-01-01T00:00:00Z", stars := 3, language := "" }

/-- Reflexivity of the code-point lexicographic order. -/
lemma charsLe_refl : ∀ l : List Char, charsLe l l = true
  | [] => rfl
  | a :: as => by simp [charsLe, charsLe_refl as]

/-- Totality of the code-point lexicographic order. -/
lemma charsLe_total : ∀ a b : List Char, charsLe a b || charsLe b a
  | [], _ => by simp [charsLe]
  | _ :: _, [] => by simp [charsLe]
  | a :: as, b :: bs => by
    by_cases hab : a < b
    · simp [charsLe, hab]
    · by_cases hba : b < a
      · simp [charsLe, hab, hba, asymm hba]
      · simp [charsLe, hab, hba, charsLe_total as bs]

/-- Transitivity of the code-point lexicographic order. -/
lemma charsLe_trans : ∀ a b c : List Char,
    charsLe a b = true → charsLe b c = true → charsLe a c = true
  | [], _, _, _, _ => rfl
  | x :: xs, [], _, h, _ => by simp [charsLe] at h
  | x :: xs, y :: ys, [], _, h => by simp [charsLe] at h
  | x :: xs, y :: ys, z :: zs, h1, h2 => by
    by_cases hxy : x < y
    · by_cases hyz : y < z
      · simp [charsLe, lt_trans hxy hyz]
      · by_cases hzy : z < y
        · simp [charsLe, hyz, hzy] at h2
        · have : y = z := le_antisymm (not_lt.mp hzy) (not_lt.mp hyz)
          subst this
          simp [charsLe, hxy]
    · by_cases hyx : y < x
      · simp [charsLe, hxy, hyx] at h1
      · have hx : x = y := le_antisymm (not_lt.mp hyx) (not_lt.mp hxy)
        subst hx
        by_cases hyz : x < z
        · simp [charsLe, hyz]
        · by_cases hzy : z < x
          · simp [charsLe, hyz, hzy] at h2
          · have : x = z := le_antisymm (not_lt.mp hzy) (not_lt.mp hyz)
            subst this
            simp [charsLe, hxy] at h1 h2 ⊢
            exact charsLe_trans xs ys zs h1 h2

/-- The comparison used by `sort_entries` is transitive. -/
lemma sort_rel_trans (a b c : Entry)
    (h1 : strLe (entry_key b) (entry_key a) = true)
    (h2 : strLe (entry_key c) (entry_key b) = true) :
    strLe (entry_key c) (entry_key a) = true :=
  charsLe_trans _ _ _ h2 h1

/-- Appending `"/"` to any string yields a string whose last character is
`'/'` — the formal reading of "ends in a trailing slash". -/
lemma append_slash_last (s : String) : (s ++ "/").data.getLast? = some '/' := by
  cases s with
  | mk l =>
    show (l ++ ['/']).getLast? = some '/'
    simp

/-- Unfolding of `List.mergeSort` on a three-element list. -/
lemma mergeSort_three {α : Type} (le : α → α → Bool) (a b c : α) :
    [a, b, c].mergeSort le = List.merge (List.merge [a] [b] le) [c] le := by
  simp [List.mergeSort, List.splitInTwo]

/-- Counterexample to claim C1 as stated: with acceptable set `{200}` and
all three attempts answering HTTP 204, `gh_get` does not raise an
`HTTPError` — `raise_for_status()` is a no-op below status 400, and the
call returns Python `None` (a normal return of a non-response value). -/
theorem c1_counterexample :
    (gh_get [200] env204).1 = .noResponse ∧
    (gh_get [200] env204).1 ≠ .httpError 204 "No Content" := by
  decide

/-- Claim C1 (amended): when all 3 attempts return a status outside the
acceptable set, the call raises an `HTTPError` carrying the final
response's status and body if that final status lies in 400–599, and
otherwise returns `None` without raising. -/
theorem gh_get_exhausted_raises (ok_codes : List Nat) (att : Nat → Attempt)
    (r0 r1 r2 : Response)
    (h0 : att 0 = .resp r0) (h1 : att 1 = .resp r1) (h2 : att 2 = .resp r2)
    (n0 : r0.status ∉ ok_codes) (n1 : r1.status ∉ ok_codes)
    (n2 : r2.status ∉ ok_codes) :
    (gh_get ok_codes att).1 =
      if 400 ≤ r2.status ∧ r2.status < 600 then .httpError r2.status r2.body
      else .noResponse := by
  have e : gh_get_loop ok_codes att 3 0 = (.exhausted (some r2), 3, [15, 30, 45]) := by
    simp [gh_get_loop, h0, h1, h2, n0, n1, n2]
  by_cases hc : 400 ≤ r2.status ∧ r2.status < 600
  · simp [gh_get, e, raise_for_status, hc]
  · simp [gh_get, e, raise_for_status, hc]

/-- Witness for `gh_get_exhausted_raises` at a concrete input: three
HTTP 500 responses produce `HTTPError` with status 500 and body `"boom"`. -/
theorem gh_get_exhausted_raises_witness :
    (gh_get [200] env500).1 = .httpError 500 "boom" := by
  rw [gh_get_exhausted_raises [200] env500
      ⟨500, "boom", none, none⟩ ⟨500, "boom", none, none⟩ ⟨500, "boom", none, none⟩
      rfl rfl rfl (by decide) (by decide) (by decide)]
  decide

/-- Counterexample to claim C4 as stated: when all three attempts fail
(here with HTTP 500), the sleep schedule is 1.5s, 3.0s **and then 4.5s** —
a third sleep occurs after the final attempt, before `raise_for_status`;
the schedule is not just 1.5s then 3.0s. -/
theorem c4_counterexample :
    gh_get [200] env500 = (.httpError 500 "boom", 3, [15, 30, 45]) ∧
    [15, 30, 45] ≠ [15, 30] := by
  decide

/-- Claim C4 (amended): every `gh_get` call issues at most 3 request
attempts, the k-th sleep (1-based) lasts `1.5 * k` seconds (recorded in
tenths), and a sleep follows **every** unacceptable response — so on
exhaustion there are exactly 3 sleeps (1.5s, 3.0s, 4.5s), the last one
after the final attempt, while a call that returns or raises after
attempt k has slept only k-1 times. -/
theorem gh_get_retry_schedule (ok_codes : List Nat) (att : Nat → Attempt) :
    (gh_get ok_codes att).2.1 ≤ 3 ∧
    (gh_get ok_codes att).2.2 =
      (List.range (gh_get ok_codes att).2.2.length).map (fun k => 15 * (k + 1)) ∧
    (if is_exhausted (gh_get ok_codes att).1 = true
     then (gh_get ok_codes att).2.1 = 3 ∧ (gh_get ok_codes att).2.2.length = 3
     else (gh_get ok_codes att).2.2.length + 1 = (gh_get ok_codes att).2.1) := by
  rcases h0 : att 0 with _ | r0
  · have e : gh_get ok_codes att = (.exn, 1, []) := by
      simp [gh_get, gh_get_loop, h0]
    rw [e]; refine ⟨by norm_num, by simp [List.range_succ], by simp [is_exhausted]⟩
  · by_cases m0 : r0.status ∈ ok_codes
    · have e : gh_get ok_codes att = (.success r0, 1, []) := by
        simp [gh_get, gh_get_loop, h0, m0]
      rw [e]; refine ⟨by norm_num, by simp [List.range_succ], by simp [is_exhausted]⟩
    · rcases h1 : att 1 with _ | r1
      · have e : gh_get ok_codes att = (.exn, 2, [15]) := by
          simp [gh_get, gh_get_loop, h0, m0, h1]
        rw [e]; refine ⟨by norm_num, by simp [List.range_succ], by simp [is_exhausted]⟩
      · by_cases m1 : r1.status ∈ ok_codes
        · have e : gh_get ok_codes att = (.success r1, 2, [15]) := by
            simp [gh_get, gh_get_loop, h0, m0, h1, m1]
          rw [e]; refine ⟨by norm_num, by simp [List.range_succ], by simp [is_exhausted]⟩
        · rcases h2 : att 2 with _ | r2
          · have e : gh_get ok_codes att = (.exn, 3, [15, 30]) := by
              simp [gh_get, gh_get_loop, h0, m0, h1, m1, h2]
            rw [e]; refine ⟨by norm_num, by simp [List.range_succ], by simp [is_exhausted]⟩
          · by_cases m2 : r2.status ∈ ok_codes
            · have e : gh_get ok_codes att = (.success r2, 3, [15, 30]) := by
                simp [gh_get, gh_get_loop, h0, m0, h1, m1, h2, m2]
              rw [e]; refine ⟨by norm_num, by simp [List.range_succ], by simp [is_exhausted]⟩
            · have el : gh_get_loop ok_codes att 3 0 =
                  (.exhausted (some r2), 3, [15, 30, 45]) := by
                simp [gh_get_loop, h0, m0, h1, m1, h2, m2]
              by_cases hc : 400 ≤ r2.status ∧ r2.status < 600
              · have e : gh_get ok_codes att = (.httpError r2.status r2.body, 3, [15, 30, 45]) := by
                  simp [gh_get, el, raise_for_status, hc]
                rw [e]; refine ⟨by norm_num, by simp [List.range_succ], by simp [is_exhausted]⟩
              · have e : gh_get ok_codes att = (.noResponse, 3, [15, 30, 45]) := by
                  simp [gh_get, el, raise_for_status, hc]
                rw [e]; refine ⟨by norm_num, by simp [List.range_succ], by simp [is_exhausted]⟩

/-- Witness for `gh_get_retry_schedule` at a concrete input: a first
attempt answering HTTP 200 means one request and no sleeps. -/
theorem gh_get_retry_schedule_witness :
    (gh_get [200] (fun _ => .resp ⟨200, "ok", none, none⟩)).2.1 ≤ 3 ∧
    (gh_get [200] (fun _ => .resp ⟨200, "ok", none, none⟩)).2.2 =
      (List.range (gh_get [200] (fun _ => .resp ⟨200, "ok", none, none⟩)).2.2.length).map
        (fun k => 15 * (k + 1)) ∧
    (if is_exhausted (gh_get [200] (fun _ => .resp ⟨200, "ok", none, none⟩)).1 = true
     then (gh_get [200] (fun _ => .resp ⟨200, "ok", none, none⟩)).2.1 = 3 ∧
          (gh_get [200] (fun _ => .resp ⟨200, "ok", none, none⟩)).2.2.length = 3
     else (gh_get [200] (fun _ => .resp ⟨200, "ok", none, none⟩)).2.2.length + 1 =
          (gh_get [200] (fun _ => .resp ⟨200, "ok", none, none⟩)).2.1) :=
  gh_get_retry_schedule [200] (fun _ => .resp ⟨200, "ok", none, none⟩)

/-- Counterexample to claim C3 as stated: for account `Acme` and repository
`widgets` with a 404 from the Pages API, the fallback URL keeps the
account's original casing — `https://Acme.github.io/widgets/`, not
`https://acme.github.io/widgets/`. -/
theorem c3_counterexample :
    get_pages_url "Acme" "widgets" true env404 = .url "https://Acme.github.io/widgets/" ∧
    get_pages_url "Acme" "widgets" true env404 ≠ .url "https://acme.github.io/widgets/" := by
  decide

/-- Claim C3 (amended): for every repository that is not the account's
root site and whose Pages lookup does not yield an explicit site URL or a
custom domain — a 403 or 404 response, a 200 response with neither field
truthy, an `HTTPError` after retries exhaust, or a network exception — the
resolved URL is exactly
`https://{account **as supplied**}.github.io/{repository name}/`: the
fallback interpolates the owner without lowercasing it. -/
theorem fallback_url_owner_verbatim (owner repo_name : String)
    (att : Nat → Attempt)
    (hroot : lowerStr repo_name ≠ special_root owner)
    (hfall : lookup_fell_through (gh_get [200, 403, 404] att).1 = true) :
    get_pages_url owner repo_name true att =
      .url ("https://" ++ owner ++ ".github.io/" ++ repo_name ++ "/") := by
  cases hg : (gh_get [200, 403, 404] att).1 with
  | success r =>
    by_cases hs : r.status = 200
    · have hfields : truthy r.html_url = false ∧ truthy r.cname = false := by
        have := hfall
        rw [hg] at this
        simpa [lookup_fell_through, hs] using this
      simp [get_pages_url, hroot, hg, hs, hfields.1, hfields.2]
    · simp [get_pages_url, hroot, hg, hs]
  | httpError s b => simp [get_pages_url, hroot, hg]
  | noResponse => rw [hg] at hfall; simp [lookup_fell_through] at hfall
  | exn => simp [get_pages_url, hroot, hg]

/-- Witness for `fallback_url_owner_verbatim` at the C3 scenario input
(account `Acme`, repository `widgets`, Pages lookup answering 404). -/
theorem fallback_url_owner_verbatim_witness :
    get_pages_url "Acme" "widgets" true env404 =
      .url ("https://" ++ "Acme" ++ ".github.io/" ++ "widgets" ++ "/") :=
  fallback_url_owner_verbatim "Acme" "widgets" env404 (by decide) (by decide)

/-- Claim C5: when the repository's case-folded name equals
`{account-lowercased}.github.io`, the resolved URL is exactly
`https://{account-lowercased}.github.io/`, whatever the Pages-API attempt
environment does. -/
theorem root_site_url (owner repo_name : String) (att : Nat → Attempt)
    (h : lowerStr repo_name = special_root owner) :
    get_pages_url owner repo_name true att =
      .url ("https://" ++ (lowerStr owner ++ ".github.io") ++ "/") := by
  simp [get_pages_url, h, special_root]

/-- Witness for `root_site_url`: account `Acme`, repository `Acme.GitHub.IO`,
with an attempt environment that would crash any lookup (HTTP 204); the
root-site rule still yields `https://acme.github.io/`. -/
theorem root_site_url_witness :
    get_pages_url "Acme" "Acme.GitHub.IO" true env204 =
      .url ("https://" ++ (lowerStr "Acme" ++ ".github.io") ++ "/") :=
  root_site_url "Acme" "Acme.GitHub.IO" env204 (by decide)

/-- Counterexample to claim C2 as stated: an eligible repository whose
Pages lookup answers HTTP 204 on all three attempts (an unacceptable final
status outside 400–599) makes `gh_get` return `None`; the subsequent
`r.status_code` raises an `AttributeError`, which the
`except requests.RequestException` clause does not catch, and the whole
run aborts instead of falling back. -/
theorem c2_counterexample :
    pages_projects "Acme" [] [] (fun _ => env204) [widgetsRepo] = .error () := by
  rfl

/-- Claim C2 (amended): failures of the per-repository Pages lookup that
surface as a `requests.RequestException` — a returned 403/404, an
`HTTPError` after retries exhaust on a 400–599 status, or a lower-level
network exception — are absorbed: the repository falls back to the
heuristic URL and processing of the remaining repositories continues.
(An unacceptable final status outside 400–599, by contrast, aborts the
run, per `c2_counterexample`.) -/
theorem detail_lookup_nonfatal (owner : String) (excl excl_full : List String)
    (env : String → Nat → Attempt) (repo : Repo) (rest : List Repo)
    (es : List Entry)
    (hp : repo.has_pages = true) (ha : repo.archived = false)
    (hn : lowerStr repo.name ∉ excl) (hf : full_name_of owner repo ∉ excl_full)
    (hroot : lowerStr repo.name ≠ special_root owner)
    (hfail : lookup_caught (gh_get [200, 403, 404] (env repo.name)).1 = true)
    (hrest : pages_projects owner excl excl_full env rest = .ok es) :
    pages_projects owner excl excl_full env (repo :: rest) =
      .ok (mk_entry owner repo
            (some ("https://" ++ owner ++ ".github.io/" ++ repo.name ++ "/")) :: es) := by
  have hurl : get_pages_url owner repo.name true (env repo.name) =
      .url ("https://" ++ owner ++ ".github.io/" ++ repo.name ++ "/") := by
    cases hg : (gh_get [200, 403, 404] (env repo.name)).1 with
    | success r =>
      have hs : r.status ≠ 200 := by simpa [lookup_caught, hg] using hfail
      simp [get_pages_url, hroot, hg, hs]
    | httpError s b => simp [get_pages_url, hroot, hg]
    | noResponse => simp [lookup_caught, hg] at hfail
    | exn => simp [get_pages_url, hroot, hg]
  simp [pages_projects, hp, ha, hn, hf, hurl, hrest]

/-- Witness for `detail_lookup_nonfatal`: a 404-answering lookup for the
eligible `widgets` repository yields the fallback entry and an intact run. -/
theorem detail_lookup_nonfatal_witness :
    pages_projects "Acme" [] [] (fun _ => env404) [widgetsRepo] =
      .ok [mk_entry "Acme" widgetsRepo
            (some ("https://" ++ "Acme" ++ ".github.io/" ++ widgetsRepo.name ++ "/"))] :=
  detail_lookup_nonfatal "Acme" [] [] (fun _ => env404) widgetsRepo [] []
    rfl rfl (by decide) (by decide) (by decide) (by decide) rfl

/-- Claim C7: the writer reports "no changes" and skips the write exactly
when the existing snapshot file parses to a structure equal to the newly
computed list; a file that fails to parse is treated as absent and the
write proceeds (reporting the entry count); and after any run the file
parses back to the computed list, so a second run over identical data
skips its write. -/
theorem write_snapshot_spec :
    (∀ (old : OldFile) (new : List Entry),
      write_snapshot old new = .noChanges ↔ old = .parsedEntries new) ∧
    (∀ new : List Entry, write_snapshot .unparseable new = .wrote new.length) ∧
    (∀ (old : OldFile) (new : List Entry),
      write_snapshot (file_after old new) new = .noChanges) := by
  refine ⟨fun old new => ?_, fun new => rfl, fun old new => ?_⟩
  · cases old with
    | parsedEntries v =>
      constructor
      · intro h
        by_cases hv : v = new
        · rw [hv]
        · simp [write_snapshot, hv] at h
      · intro h
        cases h
        simp [write_snapshot]
    | absent => simp [write_snapshot]
    | unparseable => simp [write_snapshot]
    | parsedOther => simp [write_snapshot]
  · cases old with
    | parsedEntries v =>
      by_cases hv : v = new
      · subst hv
        simp [file_after, write_snapshot]
      · simp [file_after, write_snapshot, hv]
    | absent => simp [file_after, write_snapshot]
    | unparseable => simp [file_after, write_snapshot]
    | parsedOther => simp [file_after, write_snapshot]

/-- Every entry in a completed run comes from a listed record that passed
all four filter conditions, and is assembled by `mk_entry`. -/
lemma pages_projects_sound (owner : String) (excl excl_full : List String)
    (env : String → Nat → Attempt) (repos : List Repo) :
    ∀ es : List Entry,
      pages_projects owner excl excl_full env repos = .ok es →
      ∀ e ∈ es, ∃ repo ∈ repos,
        repo.has_pages = true ∧ repo.archived = false ∧
        lowerStr repo.name ∉ excl ∧ full_name_of owner repo ∉ excl_full ∧
        ∃ u, e = mk_entry owner repo u := by
  induction repos with
  | nil =>
    intro es h e he
    simp only [pages_projects] at h
    cases h
    simp at he
  | cons repo rest ih =>
    intro es h e he
    simp only [pages_projects] at h
    by_cases hp : repo.has_pages = false
    · rw [if_pos hp] at h
      obtain ⟨r, hr, hconds⟩ := ih es h e he
      exact ⟨r, List.mem_cons_of_mem _ hr, hconds⟩
    · rw [if_neg hp] at h
      by_cases ha : repo.archived = true
      · rw [if_pos ha] at h
        obtain ⟨r, hr, hconds⟩ := ih es h e he
        exact ⟨r, List.mem_cons_of_mem _ hr, hconds⟩
      · rw [if_neg ha] at h
        by_cases hm : lowerStr repo.name ∈ excl ∨ full_name_of owner repo ∈ excl_full
        · rw [if_pos hm] at h
          obtain ⟨r, hr, hconds⟩ := ih es h e he
          exact ⟨r, List.mem_cons_of_mem _ hr, hconds⟩
        · rw [if_neg hm] at h
          push_neg at hm
          have hp' : repo.has_pages = true := by simpa using hp
          have ha' : repo.archived = false := by simpa using ha
          cases hg : get_pages_url owner repo.name true (env repo.name) with
          | crash => rw [hg] at h; cases h
          | url s =>
            rw [hg] at h
            cases hr : pages_projects owner excl excl_full env rest with
            | error e' => rw [hr] at h; cases h
            | ok es' =>
              rw [hr] at h
              cases h
              rcases List.mem_cons.mp he with rfl | hmem
              · exact ⟨repo, List.mem_cons_self _ _,
                  hp', ha', hm.1, hm.2, some s, rfl⟩
              · obtain ⟨r, hrm, hconds⟩ := ih es' hr e hmem
                exact ⟨r, List.mem_cons_of_mem _ hrm, hconds⟩
          | noUrl =>
            rw [hg] at h
            cases hr : pages_projects owner excl excl_full env rest with
            | error e' => rw [hr] at h; cases h
            | ok es' =>
              rw [hr] at h
              cases h
              rcases List.mem_cons.mp he with rfl | hmem
              · exact ⟨repo, List.mem_cons_self _ _,
                  hp', ha', hm.1, hm.2, none, rfl⟩
              · obtain ⟨r, hrm, hconds⟩ := ih es' hr e hmem
                exact ⟨r, List.mem_cons_of_mem _ hrm, hconds⟩

/-- A record failing any filter condition is skipped: the run continues on
the remaining records exactly as if the record were not listed. -/
lemma pages_projects_skip (owner : String) (excl excl_full : List String)
    (env : String → Nat → Attempt) (repo : Repo) (rest : List Repo)
    (h : repo.has_pages = false ∨ repo.archived = true ∨
         lowerStr repo.name ∈ excl ∨ full_name_of owner repo ∈ excl_full) :
    pages_projects owner excl excl_full env (repo :: rest) =
      pages_projects owner excl excl_full env rest := by
  rcases h with h | h | h | h
  · simp [pages_projects, h]
  · by_cases hp : repo.has_pages = false
    · simp [pages_projects, hp]
    · simp [pages_projects, hp, h]
  · by_cases hp : repo.has_pages = false
    · simp [pages_projects, hp]
    · by_cases ha : repo.archived = true
      · simp [pages_projects, hp, ha]
      · simp [pages_projects, hp, ha, h]
  · by_cases hp : repo.has_pages = false
    · simp [pages_projects, hp]
    · by_cases ha : repo.archived = true
      · simp [pages_projects, hp, ha]
      · simp [pages_projects, hp, ha, h]

/-- Claim C8: an output entry exists for a raw record only if the record
has the published-site flag, is not archived, and has neither its
case-folded name in the exclusion set nor its case-folded full name in the
derived full-name exclusion set; records failing any condition are dropped
silently — the run just proceeds with the rest. -/
theorem output_only_eligible :
    (∀ (owner : String) (excl excl_full : List String)
       (env : String → Nat → Attempt) (repos : List Repo) (es : List Entry),
       pages_projects owner excl excl_full env repos = .ok es →
       ∀ e ∈ es, ∃ repo ∈ repos,
         repo.has_pages = true ∧ repo.archived = false ∧
         lowerStr repo.name ∉ excl ∧ full_name_of owner repo ∉ excl_full ∧
         ∃ u, e = mk_entry owner repo u) ∧
    (∀ (owner : String) (excl excl_full : List String)
       (env : String → Nat → Attempt) (repo : Repo) (rest : List Repo),
       (repo.has_pages = false ∨ repo.archived = true ∨
        lowerStr repo.name ∈ excl ∨ full_name_of owner repo ∈ excl_full) →
       pages_projects owner excl excl_full env (repo :: rest) =
         pages_projects owner excl excl_full env rest) :=
  ⟨fun owner excl excl_full env repos es h e he =>
      pages_projects_sound owner excl excl_full env repos es h e he,
   fun owner excl excl_full env repo rest h =>
      pages_projects_skip owner excl excl_full env repo rest h⟩

/-- Witness for `output_only_eligible`: with `secret-repo` excluded, the
published, unarchived repository `Secret-Repo` is skipped silently. -/
theorem output_only_eligible_witness :
    pages_projects "Acme" ["secret-repo"] ["acme/secret-repo"]
        (fun _ => env404) (secretRepo :: []) =
      pages_projects "Acme" ["secret-repo"] ["acme/secret-repo"]
        (fun _ => env404) [] :=
  output_only_eligible.2 "Acme" ["secret-repo"] ["acme/secret-repo"]
    (fun _ => env404) secretRepo []
    (Or.inr (Or.inr (Or.inl (by decide))))

/-- For a repository with the published-site flag, `get_pages_url` either
aborts (uncaught exception) or returns a URL string whose last character
is `'/'` — in every branch: root site, explicit `html_url`, custom domain,
and fallback heuristic.  It never returns Python `None`. -/
lemma get_pages_url_slash (owner repo_name : String) (att : Nat → Attempt) :
    get_pages_url owner repo_name true att = .crash ∨
    ∃ s, get_pages_url owner repo_name true att = .url s ∧
         s.data.getLast? = some '/' := by
  by_cases hroot : lowerStr repo_name = special_root owner
  · exact Or.inr ⟨("https://" ++ special_root owner) ++ "/",
      by simp [get_pages_url, hroot], append_slash_last _⟩
  · cases hg : (gh_get [200, 403, 404] att).1 with
    | success r =>
      by_cases hs : r.status = 200
      · by_cases hh : truthy r.html_url = true
        · exact Or.inr ⟨rstrip_slash (r.html_url.getD "") ++ "/",
            by simp [get_pages_url, hroot, hg, hs, hh], append_slash_last _⟩
        · by_cases hc : truthy r.cname = true
          · exact Or.inr ⟨("https://" ++ rstrip_slash (r.cname.getD "")) ++ "/",
              by simp [get_pages_url, hroot, hg, hs, hh, hc], append_slash_last _⟩
          · exact Or.inr ⟨("https://" ++ owner ++ ".github.io/" ++ repo_name) ++ "/",
              by simp [get_pages_url, hroot, hg, hs, hh, hc], append_slash_last _⟩
      · exact Or.inr ⟨("https://" ++ owner ++ ".github.io/" ++ repo_name) ++ "/",
          by simp [get_pages_url, hroot, hg, hs], append_slash_last _⟩
    | httpError s b =>
      exact Or.inr ⟨("https://" ++ owner ++ ".github.io/" ++ repo_name) ++ "/",
        by simp [get_pages_url, hroot, hg], append_slash_last _⟩
    | noResponse => exact Or.inl (by simp [get_pages_url, hroot, hg])
    | exn =>
      exact Or.inr ⟨("https://" ++ owner ++ ".github.io/" ++ repo_name) ++ "/",
        by simp [get_pages_url, hroot, hg], append_slash_last _⟩

/-- Claim C10: in every completed run, each output entry's `url` field is a
string (never null) ending in `'/'`. -/
theorem output_url_trailing_slash (owner : String) (excl excl_full : List String)
    (env : String → Nat → Attempt) (repos : List Repo) (es : List Entry)
    (h : pages_projects owner excl excl_full env repos = .ok es) :
    ∀ e ∈ es, ∃ s, e.url = some s ∧ s.data.getLast? = some '/' := by
  induction repos generalizing es with
  | nil =>
    intro e he
    simp only [pages_projects] at h
    cases h
    simp at he
  | cons repo rest ih =>
    intro e he
    simp only [pages_projects] at h
    by_cases hp : repo.has_pages = false
    · rw [if_pos hp] at h; exact ih es h e he
    · rw [if_neg hp] at h
      by_cases ha : repo.archived = true
      · rw [if_pos ha] at h; exact ih es h e he
      · rw [if_neg ha] at h
        by_cases hm : lowerStr repo.name ∈ excl ∨ full_name_of owner repo ∈ excl_full
        · rw [if_pos hm] at h; exact ih es h e he
        · rw [if_neg hm] at h
          rcases get_pages_url_slash owner repo.name (env repo.name) with hg | ⟨s, hg, hs⟩
          · rw [hg] at h; cases h
          · rw [hg] at h
            cases hr : pages_projects owner excl excl_full env rest with
            | error e' => rw [hr] at h; cases h
            | ok es' =>
              rw [hr] at h
              cases h
              rcases List.mem_cons.mp he with rfl | hmem
              · exact ⟨s, rfl, hs⟩
              · exact ih es' hr e hmem

/-- Witness for `output_url_trailing_slash` at a concrete run over one
eligible repository whose lookup answers 404. -/
theorem output_url_trailing_slash_witness :
    ∃ s, (mk_entry "Acme" widgetsRepo
            (some ("https://" ++ "Acme" ++ ".github.io/" ++ "widgets" ++ "/"))).url =
          some s ∧ s.data.getLast? = some '/' :=
  output_url_trailing_slash "Acme" [] [] (fun _ => env404) [widgetsRepo]
    [mk_entry "Acme" widgetsRepo
      (some ("https://" ++ "Acme" ++ ".github.io/" ++ "widgets" ++ "/"))]
    rfl _ (List.mem_singleton.mpr rfl)

/-- Pagination invariant: starting at page `p ≤ N`, where `N` is the first
empty page at or after the start, the loop requests pages `p, …, N` and
accumulates the chunks of pages `p, …, N-1`, for any sufficient fuel. -/
lemma list_repos_from_spec (pages : Nat → List Repo) (N : Nat)
    (hN : pages N = []) (hlt : ∀ k, 1 ≤ k → k < N → pages k ≠ []) :
    ∀ fuel p : Nat, 1 ≤ p → p ≤ N → N + 1 - p ≤ fuel →
      list_repos_from pages fuel p =
        some (List.range' p (N + 1 - p),
              ((List.range' p (N - p)).map pages).flatten) := by
  intro fuel
  induction fuel with
  | zero => intro p h1 h2 h3; omega
  | succ fuel ih =>
    intro p h1 h2 h3
    by_cases hp : p = N
    · subst hp
      have e1 : p + 1 - p = 1 := by omega
      have e2 : p - p = 0 := by omega
      rw [e1, e2]
      simp [list_repos_from, hN, List.range']
    · have hplt : p < N := lt_of_le_of_ne h2 hp
      have hne : pages p ≠ [] := hlt p h1 hplt
      have ihp := ih (p + 1) (by omega) (by omega) (by omega)
      have e3 : N + 1 - (p + 1) = N - p := by omega
      rw [e3] at ihp
      have c1 : List.range' p (N + 1 - p) = p :: List.range' (p + 1) (N - p) := by
        have e1 : N + 1 - p = (N - p) + 1 := by omega
        rw [e1, List.range'_succ]
      have c2 : ((List.range' p (N - p)).map pages).flatten =
          pages p ++ ((List.range' (p + 1) (N - (p + 1))).map pages).flatten := by
        have e2 : N - p = (N - (p + 1)) + 1 := by omega
        rw [e2, List.range'_succ]
        simp
      simp only [list_repos_from]
      rw [if_neg hne, ihp, c1, c2]

/-- Claim C9: whenever page `N` is the first empty page (pages `1…N-1` are
non-empty), the listing loop requests exactly pages `1, 2, …, N` in order
and returns the concatenation, in page order, of the non-empty chunks —
for any fuel of at least `N` iterations. -/
theorem listing_stops_at_first_empty_page (pages : Nat → List Repo)
    (N fuel : Nat) (h1 : 1 ≤ N) (hN : pages N = [])
    (hlt : ∀ k, 1 ≤ k → k < N → pages k ≠ []) (hfuel : N ≤ fuel) :
    list_public_repos pages fuel =
      some (List.range' 1 N, ((List.range' 1 (N - 1)).map pages).flatten) := by
  have h := list_repos_from_spec pages N hN hlt fuel 1 le_rfl h1 (by omega)
  rw [list_public_repos, h]
  have e : N + 1 - 1 = N := by omega
  rw [e]

/-- Witness for `listing_stops_at_first_empty_page`: one non-empty page
followed by an empty page 2 yields requests `[1, 2]` and that page's
single repository. -/
theorem listing_stops_witness :
    list_public_repos pagesOne 2 = some ([1, 2], [widgetsRepo]) := by
  have h := listing_stops_at_first_empty_page pagesOne 2 2 (by omega) (by decide)
    (fun k hk1 hk2 => by
      have hk : k = 1 := by omega
      subst hk
      decide) le_rfl
  rw [h]
  decide

/-- The comparison used by `sort_entries` is total. -/
lemma sort_rel_total (a b : Entry) :
    (strLe (entry_key b) (entry_key a) || strLe (entry_key a) (entry_key b)) = true :=
  charsLe_total (entry_key b).data (entry_key a).data

/-- Claim C6: the snapshot sort orders entries by the `updated_at` key in
descending lexicographic order (so empty timestamps, being minimal, come
last), permutes the input, keeps the relative order of entries with equal
timestamps (stability), and on the spec's example
`["2024-01-01…", "", "2024-06-01…"]` produces `[2024-06-01…, 2024-01-01…, ""]`. -/
theorem sort_entries_spec :
    (∀ es : List Entry,
      (sort_entries es).Pairwise
        (fun a b => strLe (entry_key b) (entry_key a) = true)) ∧
    (∀ es : List Entry, List.Perm (sort_entries es) es) ∧
    (∀ (es : List Entry) (a b : Entry), a.updated_at = b.updated_at →
      List.Sublist [a, b] es → List.Sublist [a, b] (sort_entries es)) ∧
    sort_entries [entJan, entNone, entJun] = [entJun, entJan, entNone] := by
  have trans : ∀ a b c : Entry,
      (fun a b => strLe (entry_key b) (entry_key a)) a b = true →
      (fun a b => strLe (entry_key b) (entry_key a)) b c = true →
      (fun a b => strLe (entry_key b) (entry_key a)) a c = true :=
    fun a b c hab hbc => sort_rel_trans a b c hab hbc
  have total : ∀ a b : Entry,
      ((fun a b => strLe (entry_key b) (entry_key a)) a b ||
       (fun a b => strLe (entry_key b) (entry_key a)) b a) = true :=
    fun a b => sort_rel_total a b
  refine ⟨?_, ?_, ?_, ?_⟩
  · intro es
    exact List.sorted_mergeSort trans total es
  · intro es
    exact List.mergeSort_perm es _
  · intro es a b hab hsub
    have hkey : entry_key a = entry_key b := by
      simp [entry_key, hab]
    have hle : (fun a b => strLe (entry_key b) (entry_key a)) a b = true := by
      simp only [hkey]
      exact charsLe_refl _
    exact List.pair_sublist_mergeSort trans total hle hsub
  · have h1 : strLe (entry_key entNone) (entry_key entJan) = true := by decide
    have h2 : strLe (entry_key entJun) (entry_key entJan) = false := by decide
    rw [sort_entries, mergeSort_three]
    simp [List.merge, h1, h2]

/-- Witness for `sort_entries_spec`: stability applied at a concrete pair
of equal-timestamp entries. -/
theorem sort_entries_spec_witness :
    List.Sublist [entJan, entJanB] (sort_entries [entJun, entJan, entJanB]) :=
  sort_entries_spec.2.2.1 [entJun, entJan, entJanB] entJan entJanB
    (by decide) (by decide)
